import Mathlib

/-!
# Verification of `scripts.js` (max-mcdonnell-portfolio)

Shallow embedding of the YouTube-embed helper layer of `scripts.js`:

* `extractYTId` — the identifier extractor (lines 14–26);
* `ytSrc` — the embed URL builder (lines 35–54), with a faithful model of
  `URLSearchParams` serialization (`application/x-www-form-urlencoded`);
* `injectIframe` / `clearIframe` — the player host manager (lines 60–89),
  over a host modelled as the list of its child nodes;
* the hover-preview wiring of `setupHoverPreviews` (lines 142–167) as a
  step function on a card state.

Strings are modelled as `List Char` (`Str`), JavaScript `null`/`undefined`
arguments as `Option`.
-/

set_option maxRecDepth 8000

/-- JavaScript strings, modelled as lists of characters. -/
abbrev Str := List Char

/-- Shorthand turning a Lean string literal into the `Str` model. -/
def toL (s : String) : Str := s.toList

/-- The ECMAScript `WhiteSpace` / `LineTerminator` set trimmed by
`String.prototype.trim`. -/
def jsWhitespace (c : Char) : Bool :=
  let n := c.toNat
  n = 0x09 || n = 0x0A || n = 0x0B || n = 0x0C || n = 0x0D || n = 0x20 ||
  n = 0xA0 || n = 0x1680 || (0x2000 ≤ n && n ≤ 0x200A) ||
  n = 0x2028 || n = 0x2029 || n = 0x202F || n = 0x205F || n = 0x3000 || n = 0xFEFF

/-- `String.prototype.trim`: drop leading and trailing whitespace. -/
def jsTrim (s : Str) : Str :=
  ((s.dropWhile jsWhitespace).reverse.dropWhile jsWhitespace).reverse

/-- The character class `[A-Za-z0-9_-]` of the ID regexes in `extractYTId`. -/
def isIdChar (c : Char) : Bool :=
  let n := c.toNat
  (0x41 ≤ n && n ≤ 0x5A) || (0x61 ≤ n && n ≤ 0x7A) || (0x30 ≤ n && n ≤ 0x39) ||
  n = 0x5F || n = 0x2D

/-- The anchored test `/^[A-Za-z0-9_-]{11}$/.test trimmed` of `extractYTId`. -/
def isBareId (s : Str) : Bool :=
  (s.length == 11) && s.all isIdChar

/-- `listStartsWith s p = true` iff `p` is a prefix of `s`
(JavaScript `s.startsWith(p)`). -/
def listStartsWith : Str → Str → Bool
  | _, [] => true
  | [], _ :: _ => false
  | c :: cs, p :: ps => if c = p then listStartsWith cs ps else false

/-- The literal alternatives `v=`, `/embed/`, `/shorts/`, `youtu.be/` of the
URL regex `/(?:v=|\/embed\/|\/shorts\/|youtu\.be\/)([A-Za-z0-9_-]{11})/`
in `extractYTId`. -/
def codeMarkers : List Str :=
  [toL "v=", toL "/embed/", toL "/shorts/", toL "youtu.be/"]

/-- The capture group `([A-Za-z0-9_-]{11})`: exactly 11 ID characters must
follow, and they are captured. -/
def idAfter (s : Str) : Option Str :=
  if (s.take 11).length == 11 && (s.take 11).all isIdChar then some (s.take 11)
  else none

/-- Try the full regex pattern at the current position: each marker
alternative in order, followed by the 11-character capture. -/
def matchHere (markers : List Str) (s : Str) : Option Str :=
  match markers with
  | [] => none
  | m :: ms =>
    if listStartsWith s m then
      match idAfter (s.drop m.length) with
      | some vid => some vid
      | none => matchHere ms s
    else matchHere ms s

/-- Leftmost regex match: try the pattern at each position left to right
(`trimmed.match(...)`, returning the capture group). -/
def firstMatch (markers : List Str) : Str → Option Str
  | [] => none
  | c :: cs =>
    match matchHere markers (c :: cs) with
    | some vid => some vid
    | none => firstMatch markers cs

/-- `extractYTId` (scripts.js lines 14–26).  `none` models a missing
(`null`/`undefined`) argument; the JS falsy test `!value` also catches
the empty string. -/
def extractYTId (value : Option Str) : Str :=
  match value with
  | none => []
  | some v =>
    if v.isEmpty then []
    else
      let trimmed := jsTrim v
      if isBareId trimmed then trimmed
      else
        match firstMatch codeMarkers trimmed with
        | some vid => vid
        | none => trimmed

/-! ## The embed URL builder `ytSrc` -/

/-- The sentinel placeholder literal `"YOUR_"`. -/
def yourSentinel : Str := toL "YOUR_"

/-- Decimal digit characters, for JavaScript `String(number)`. -/
def digitChar : Nat → Char
  | 0 => '0' | 1 => '1' | 2 => '2' | 3 => '3' | 4 => '4'
  | 5 => '5' | 6 => '6' | 7 => '7' | 8 => '8' | _ => '9'

/-- Decimal rendering of a natural number (auxiliary, fuelled so that it
reduces structurally). -/
def natStrAux : Nat → Nat → Str
  | 0, _ => []
  | fuel + 1, n =>
    if n < 10 then [digitChar n]
    else natStrAux fuel (n / 10) ++ [digitChar (n % 10)]

/-- Decimal rendering of a natural number. -/
def natStr (n : Nat) : Str := natStrAux (n + 1) n

/-- JavaScript `String(x)` for an integer number `x`. -/
def intStr : Int → Str
  | Int.ofNat n => natStr n
  | Int.negSucc n => '-' :: natStr (n + 1)

/-- Characters that the `application/x-www-form-urlencoded` serializer used
by `URLSearchParams.toString` leaves unescaped: `[A-Za-z0-9*\-._]`. -/
def formSafe (c : Char) : Bool :=
  let n := c.toNat
  (0x41 ≤ n && n ≤ 0x5A) || (0x61 ≤ n && n ≤ 0x7A) || (0x30 ≤ n && n ≤ 0x39) ||
  n = 0x2A || n = 0x2D || n = 0x2E || n = 0x5F

/-- Uppercase hexadecimal digit. -/
def hexDigit (n : Nat) : Char :=
  digitChar n |> fun d =>
    match n with
    | 10 => 'A' | 11 => 'B' | 12 => 'C' | 13 => 'D' | 14 => 'E' | 15 => 'F'
    | _ => d

/-- Percent-escape of one byte, `%XX` with uppercase hex. -/
def percentByte (b : Nat) : Str := ['%', hexDigit (b / 16), hexDigit (b % 16)]

/-- UTF-8 bytes of a character (scalar values only, which `Char` guarantees). -/
def utf8Bytes (c : Char) : List Nat :=
  let n := c.toNat
  if n < 0x80 then [n]
  else if n < 0x800 then [0xC0 + n / 0x40, 0x80 + n % 0x40]
  else if n < 0x10000 then
    [0xE0 + n / 0x1000, 0x80 + n / 0x40 % 0x40, 0x80 + n % 0x40]
  else
    [0xF0 + n / 0x40000, 0x80 + n / 0x1000 % 0x40, 0x80 + n / 0x40 % 0x40, 0x80 + n % 0x40]

/-- Concatenated image of a list under a list-valued function. -/
def flatCat (f : α → List β) : List α → List β
  | [] => []
  | a :: as => f a ++ flatCat f as

/-- `application/x-www-form-urlencoded` escape of one character:
safe characters kept, space as `+`, everything else percent-escaped. -/
def encodeChar (c : Char) : Str :=
  if formSafe c then [c]
  else if c.toNat = 0x20 then ['+']
  else flatCat percentByte (utf8Bytes c)

/-- `application/x-www-form-urlencoded` escape of a string. -/
def formEncode (s : Str) : Str := flatCat encodeChar s

/-- Join the serialized `key=value` pairs with `&`. -/
def joinAmp : List Str → Str
  | [] => []
  | [x] => x
  | x :: xs => x ++ '&' :: joinAmp xs

/-- `URLSearchParams(pairs).toString()`: each key and value form-encoded,
pairs joined by `&` in insertion order. -/
def serializeParams (ps : List (Str × Str)) : Str :=
  joinAmp (ps.map fun kv => formEncode kv.1 ++ '=' :: formEncode kv.2)

/-- The options object of `ytSrc`; `autoplay = none` models an options
object without an `autoplay` property (`Object.assign` then keeps the
default `1`). -/
structure YtOptions where
  autoplay : Option Int
deriving DecidableEq

/-- The parameter set built by `ytSrc` (lines 41–51), in insertion order. -/
def ytParams (ap : Int) (vid : Str) : List (Str × Str) :=
  [(toL "autoplay", intStr ap), (toL "mute", toL "1"), (toL "controls", toL "0"),
   (toL "rel", toL "0"), (toL "modestbranding", toL "1"),
   (toL "playsinline", toL "1"), (toL "iv_load_policy", toL "3"),
   (toL "loop", toL "1"), (toL "playlist", vid)]

/-- The fixed origin-and-path prefix of the embed URL. -/
def embedBase : Str := toL "https://www.youtube-nocookie.com/embed/"

/-- `ytSrc` (scripts.js lines 35–54).  `none` for `raw` or `options` models
a missing argument. -/
def ytSrc (raw : Option Str) (options : Option YtOptions) : Str :=
  let ap : Int :=
    match options with
    | none => 1
    | some o => match o.autoplay with | none => 1 | some a => a
  let vid := extractYTId raw
  if vid.isEmpty || listStartsWith vid yourSentinel then []
  else embedBase ++ vid ++ '?' :: serializeParams (ytParams ap vid)

/-! ## The player host manager `injectIframe` / `clearIframe`

A host element is modelled by the list of its child nodes.  The hover and
autoplay hosts of the markup are leaf containers, so `querySelector("iframe")`
is the first iframe child in order, `appendChild` appends at the end, and
`iframe.remove()` deletes that child. -/

/-- A child node of a player host: an iframe carrying its `src`, or any
other (non-iframe) element, tagged so distinct siblings stay distinct. -/
inductive DomNode where
  | iframe (src : Str)
  | other (tag : Nat)
deriving DecidableEq

/-- Number of iframe children. -/
def countIframes : List DomNode → Nat
  | [] => 0
  | DomNode.iframe _ :: ns => countIframes ns + 1
  | DomNode.other _ :: ns => countIframes ns

/-- `hostEl.querySelector("iframe") !== null`. -/
def hasIframe : List DomNode → Bool
  | [] => false
  | DomNode.iframe _ :: _ => true
  | DomNode.other _ :: ns => hasIframe ns

/-- `src` of the first iframe child (the one `querySelector` returns). -/
def firstIframeSrc : List DomNode → Option Str
  | [] => none
  | DomNode.iframe s :: _ => some s
  | DomNode.other _ :: ns => firstIframeSrc ns

/-- Assign `iframe.src = s` on the first iframe child. -/
def setFirstIframeSrc (s : Str) : List DomNode → List DomNode
  | [] => []
  | DomNode.iframe _ :: ns => DomNode.iframe s :: ns
  | DomNode.other t :: ns => DomNode.other t :: setFirstIframeSrc s ns

/-- `iframe.remove()` on the first iframe child. -/
def removeFirstIframe : List DomNode → List DomNode
  | [] => []
  | DomNode.iframe _ :: ns => ns
  | DomNode.other t :: ns => DomNode.other t :: removeFirstIframe ns

/-- `injectIframe` (scripts.js lines 60–79).  Returns the updated host
children and the returned element's `src` (`none` models the `null`
return).  `hostEl = none` and `raw = none` model missing arguments. -/
def injectIframe (hostEl : Option (List DomNode)) (raw : Option Str)
    (options : Option YtOptions) : Option (List DomNode) × Option Str :=
  match hostEl, raw with
  | none, _ => (none, none)
  | some ns, none => (some ns, none)
  | some ns, some r =>
    if r.isEmpty then (some ns, none)
    else
      let src := ytSrc (some r) options
      if src.isEmpty then (some ns, none)
      else if hasIframe ns then (some (setFirstIframeSrc src ns), some src)
      else (some (ns ++ [DomNode.iframe src]), some src)

/-- `clearIframe` (scripts.js lines 84–89). -/
def clearIframe : Option (List DomNode) → Option (List DomNode)
  | none => none
  | some ns => if hasIframe ns then some (removeFirstIframe ns) else some ns

/-- Children after an `injectIframe` call on a present host. -/
def injectChildren (ns : List DomNode) (raw : Option Str)
    (options : Option YtOptions) : List DomNode :=
  ((injectIframe (some ns) raw options).1).getD ns

/-- Fold a sequence of `injectIframe` calls over one host. -/
def runInjects (ns : List DomNode) : List (Option Str × Option YtOptions) → List DomNode
  | [] => ns
  | (r, o) :: rest => runInjects (injectChildren ns r o) rest

/-! ## The hover-preview wiring `setupHoverPreviews` -/

/-- The `.ytEmbed[data-yt]` sub-element of a preview card: its children,
its `data-yt` attribute value, and whether it carries `data-autoplay`. -/
structure EmbedHost where
  children : List DomNode
  dataYt : Str
  dataAutoplay : Bool
deriving DecidableEq

/-- A `.hoverPreview` card: the selected `.ytEmbed[data-yt]` sub-element if
one exists, and whether the card has the `is-playing` class. -/
structure Card where
  embed : Option EmbedHost
  isPlaying : Bool
deriving DecidableEq

/-- The guards of `setupHoverPreviews` (lines 145–152): listeners are
attached iff the sub-element exists, has no `data-autoplay`, and its
`data-yt` value is non-empty and not a `YOUR_` placeholder. -/
def hoverWired (c : Card) : Bool :=
  match c.embed with
  | none => false
  | some h =>
    !h.dataAutoplay && !h.dataYt.isEmpty && !listStartsWith h.dataYt yourSentinel

/-- A pointer event on a card. -/
inductive PEvent where
  | enter
  | leave
deriving DecidableEq

/-- One pointer event on a card: for a wired card, `pointerenter` runs
`play` (add `is-playing`, inject with `{autoplay: 1}`) and `pointerleave`
runs `stop` (remove `is-playing`, clear); an unwired card has no
listeners, so nothing happens. -/
def hoverStep (c : Card) (e : PEvent) : Card :=
  if hoverWired c then
    match c.embed, e with
    | none, _ => c
    | some h, PEvent.enter =>
      { embed := some { h with
          children := injectChildren h.children (some h.dataYt) (some { autoplay := some 1 }) },
        isPlaying := true }
    | some h, PEvent.leave =>
      { embed := some { h with
          children := (clearIframe (some h.children)).getD h.children },
        isPlaying := false }
  else c

/-- `n` full pointer-enter / pointer-leave cycles on a card. -/
def runHoverCycles (c : Card) : Nat → Card
  | 0 => c
  | n + 1 => runHoverCycles (hoverStep (hoverStep c PEvent.enter) PEvent.leave) n

/-- Number of iframes in the card's embed host (0 when no sub-element). -/
def cardIframeCount (c : Card) : Nat :=
  match c.embed with
  | none => 0
  | some h => countIframes h.children

/-- `s` contains `pat` as a contiguous substring. -/
def hasSub (s pat : Str) : Bool :=
  match s with
  | [] => pat.isEmpty
  | c :: rest => listStartsWith (c :: rest) pat || hasSub rest pat

/-- Modelled from the spec: the exact embed URL template of §6,
`https://www.youtube-nocookie.com/embed/<id>?autoplay=<ap>&mute=1&controls=0&rel=0&modestbranding=1&playsinline=1&iv_load_policy=3&loop=1&playlist=<id>`,
with the identifier appearing identically in the path and in the
`playlist` parameter. -/
def specEmbedUrl (vid apStr : Str) : Str :=
  toL "https://www.youtube-nocookie.com/embed/" ++
    (vid ++ (toL "?autoplay=" ++ (apStr ++
      (toL "&mute=1&controls=0&rel=0&modestbranding=1&playsinline=1&iv_load_policy=3&loop=1&playlist=" ++
       vid))))

/-- A marker-plus-identifier occurrence of the URL regex at position `i`
of `t`: one of the marker alternatives, followed immediately by 11 ID
characters (the captured identifier `vid`). -/
def MatchAt (t : Str) (i : Nat) (vid : Str) : Prop :=
  ∃ m rest, m ∈ codeMarkers ∧ t.drop i = m ++ (vid ++ rest) ∧
    vid.length = 11 ∧ vid.all isIdChar = true

/-! ## Basic lemmas about the string model -/

theorem listStartsWith_iff (s p : Str) :
    listStartsWith s p = true ↔ ∃ r, s = p ++ r := by
  induction p generalizing s with
  | nil => simp [listStartsWith]
  | cons ph pt ih =>
    cases s with
    | nil =>
      simp only [listStartsWith, List.cons_append]
      constructor
      · intro h; cases h
      · rintro ⟨r, hr⟩; cases hr
    | cons c cs =>
      simp only [listStartsWith, List.cons_append]
      by_cases hc : c = ph
      · subst hc
        rw [if_pos rfl, ih]
        constructor
        · rintro ⟨r, rfl⟩; exact ⟨r, rfl⟩
        · rintro ⟨r, hr⟩
          injection hr with _ h2
          exact ⟨r, h2⟩
      · rw [if_neg hc]
        constructor
        · intro h; cases h
        · rintro ⟨r, hr⟩
          injection hr with h1 _
          exact absurd h1 hc

theorem listStartsWith_append (p r : Str) : listStartsWith (p ++ r) p = true :=
  (listStartsWith_iff _ _).mpr ⟨r, rfl⟩

theorem listStartsWith_refl (p : Str) : listStartsWith p p = true := by
  have := listStartsWith_append p []
  rwa [List.append_nil] at this

theorem dropWhile_eq_self_of {p : Char → Bool} {l : Str}
    (h : ∀ c ∈ l, p c = false) : l.dropWhile p = l := by
  cases l with
  | nil => rfl
  | cons a l =>
    rw [List.dropWhile_cons, h a (List.mem_cons_self a l)]
    simp

theorem jsTrim_eq_self_of {l : Str} (h : ∀ c ∈ l, jsWhitespace c = false) :
    jsTrim l = l := by
  unfold jsTrim
  rw [dropWhile_eq_self_of h,
      dropWhile_eq_self_of (fun c hc => h c (List.mem_reverse.mp hc)),
      List.reverse_reverse]

theorem isIdChar_not_ws {c : Char} (h : isIdChar c = true) :
    jsWhitespace c = false := by
  simp only [isIdChar, Bool.or_eq_true, Bool.and_eq_true, decide_eq_true_eq] at h
  simp only [jsWhitespace, Bool.or_eq_false_iff, Bool.and_eq_false_iff,
    decide_eq_false_iff_not]
  omega

theorem isIdChar_formSafe {c : Char} (h : isIdChar c = true) :
    formSafe c = true := by
  simp only [isIdChar, Bool.or_eq_true, Bool.and_eq_true, decide_eq_true_eq] at h
  simp only [formSafe, Bool.or_eq_true, Bool.and_eq_true, decide_eq_true_eq]
  omega

theorem encodeChar_of_safe {c : Char} (h : formSafe c = true) :
    encodeChar c = [c] := by
  unfold encodeChar
  rw [if_pos h]

theorem formEncode_of_safe {s : Str} (h : ∀ c ∈ s, formSafe c = true) :
    formEncode s = s := by
  induction s with
  | nil => rfl
  | cons a l ih =>
    show encodeChar a ++ formEncode l = a :: l
    rw [encodeChar_of_safe (h a (List.mem_cons_self a l)),
        ih (fun c hc => h c (List.mem_cons_of_mem a hc))]
    rfl

theorem formEncode_of_idChars {s : Str} (h : s.all isIdChar = true) :
    formEncode s = s :=
  formEncode_of_safe fun c hc => isIdChar_formSafe (List.all_eq_true.mp h c hc)

theorem digitChar_safe (n : Nat) : formSafe (digitChar n) = true := by
  rcases n with _ | _ | _ | _ | _ | _ | _ | _ | _ | n
  · decide
  · decide
  · decide
  · decide
  · decide
  · decide
  · decide
  · decide
  · decide
  · show formSafe '9' = true
    decide

theorem natStrAux_safe (fuel n : Nat) : ∀ c ∈ natStrAux fuel n, formSafe c = true := by
  induction fuel generalizing n with
  | zero => intro c hc; cases hc
  | succ fuel ih =>
    intro c hc
    unfold natStrAux at hc
    by_cases h10 : n < 10
    · rw [if_pos h10] at hc
      rcases List.mem_singleton.mp hc with rfl
      exact digitChar_safe n
    · rw [if_neg h10] at hc
      rcases List.mem_append.mp hc with h | h
      · exact ih _ c h
      · rcases List.mem_singleton.mp h with rfl
        exact digitChar_safe _

theorem intStr_safe (a : Int) : ∀ c ∈ intStr a, formSafe c = true := by
  cases a with
  | ofNat n => exact natStrAux_safe _ _
  | negSucc n =>
    intro c hc
    rcases List.mem_cons.mp hc with rfl | h
    · decide
    · exact natStrAux_safe _ _ c h

theorem formEncode_intStr (a : Int) : formEncode (intStr a) = intStr a :=
  formEncode_of_safe (intStr_safe a)

/-! ## C2: bare 11-character identifiers are returned unchanged -/

/-- C2: for every string of exactly 11 characters drawn from
`[A-Za-z0-9_-]`, `extractYTId` returns the input unchanged; more generally,
any non-empty input whose trimmed value is such a string extracts to that
trimmed string. -/
theorem extractYTId_bare_id (s : Str) (hlen : s.length = 11)
    (hch : s.all isIdChar = true) :
    extractYTId (some s) = s ∧
    (∀ v : Str, v.isEmpty = false → jsTrim v = s → extractYTId (some v) = s) := by
  have hbare : isBareId s = true := by
    simp only [isBareId, Bool.and_eq_true, beq_iff_eq]
    exact ⟨hlen, hch⟩
  have hgen : ∀ v : Str, v.isEmpty = false → jsTrim v = s → extractYTId (some v) = s := by
    intro v hv htrim
    simp [extractYTId, hv, htrim, hbare]
  refine ⟨?_, hgen⟩
  have hself : jsTrim s = s :=
    jsTrim_eq_self_of fun c hc => isIdChar_not_ws (List.all_eq_true.mp hch c hc)
  have hne : s.isEmpty = false := by
    cases s with
    | nil => simp at hlen
    | cons a l => rfl
  exact hgen s hne hself

theorem extractYTId_bare_id_witness :
    (toL "RAbnwLxwPNY").length = 11 ∧
    extractYTId (some (toL "RAbnwLxwPNY")) = toL "RAbnwLxwPNY" ∧
    extractYTId (some (toL "  RAbnwLxwPNY ")) = toL "RAbnwLxwPNY" := by
  refine ⟨by decide, (extractYTId_bare_id _ (by decide) (by decide)).1, ?_⟩
  exact (extractYTId_bare_id (toL "RAbnwLxwPNY") (by decide) (by decide)).2
    (toL "  RAbnwLxwPNY ") (by decide) (by decide)

/-! ## C5: empty or missing input -/

/-- C5: for empty or missing (`null`/`undefined`) input, both `extractYTId`
and `ytSrc` return the empty string (and, being total functions, raise no
error). -/
theorem extract_build_empty_input (options : Option YtOptions) :
    extractYTId none = [] ∧ extractYTId (some []) = [] ∧
    ytSrc none options = [] ∧ ytSrc (some []) options = [] := by
  refine ⟨rfl, rfl, ?_, ?_⟩ <;> cases options <;> rfl

/-! ## C1 / C10: the built URL against the spec's template -/

theorem serialize_ytParams (ap : Int) (vid : Str) :
    serializeParams (ytParams ap vid) =
      toL "autoplay=" ++ (formEncode (intStr ap) ++
      (toL "&mute=1&controls=0&rel=0&modestbranding=1&playsinline=1&iv_load_policy=3&loop=1&playlist=" ++
      formEncode vid)) := by
  rfl

/-- What `ytSrc` actually returns on a successful build: the fixed prefix,
the raw extracted identifier in the path, and the form-encoded parameter
string, whose `autoplay` value is `String(opts.autoplay)` unvalidated and
whose `playlist` value is the form-encoded identifier. -/
theorem ytSrc_template (raw : Str) (ap : Int)
    (hne : extractYTId (some raw) ≠ [])
    (hyp : listStartsWith (extractYTId (some raw)) yourSentinel = false) :
    ytSrc (some raw) (some { autoplay := some ap }) =
      embedBase ++ extractYTId (some raw) ++ '?' ::
        (toL "autoplay=" ++ (intStr ap ++
         (toL "&mute=1&controls=0&rel=0&modestbranding=1&playsinline=1&iv_load_policy=3&loop=1&playlist=" ++
         formEncode (extractYTId (some raw))))) := by
  have hie : (extractYTId (some raw)).isEmpty = false := by
    cases hx : extractYTId (some raw) with
    | nil => exact absurd hx hne
    | cons a l => rfl
  simp only [ytSrc, hie, hyp, Bool.or_self, Bool.false_eq_true, if_false,
    serialize_ytParams, formEncode_intStr]

/-- C1 (amended): for every raw input whose extracted identifier is
non-empty, consists only of characters in `[A-Za-z0-9_-]`, and does not
start with `YOUR_`, and for autoplay 0 or 1, `ytSrc` returns exactly the
spec's URL template with that identifier appearing identically in the path
and the `playlist` parameter; in particular the documented example holds. -/
theorem ytSrc_builds_spec_url (raw : Str) (ap : Int) (_hap : ap = 0 ∨ ap = 1)
    (hne : extractYTId (some raw) ≠ [])
    (hch : (extractYTId (some raw)).all isIdChar = true)
    (hyp : listStartsWith (extractYTId (some raw)) yourSentinel = false) :
    ytSrc (some raw) (some { autoplay := some ap }) =
      specEmbedUrl (extractYTId (some raw)) (intStr ap) ∧
    listStartsWith (ytSrc (some (toL "RAbnwLxwPNY")) (some { autoplay := some 0 }))
      (toL "https://www.youtube-nocookie.com/") = true ∧
    hasSub (ytSrc (some (toL "RAbnwLxwPNY")) (some { autoplay := some 0 }))
      (toL "autoplay=0") = true ∧
    hasSub (ytSrc (some (toL "RAbnwLxwPNY")) (some { autoplay := some 0 }))
      (toL "mute=1") = true ∧
    hasSub (ytSrc (some (toL "RAbnwLxwPNY")) (some { autoplay := some 0 }))
      (toL "playlist=RAbnwLxwPNY") = true := by
  refine ⟨?_, by decide, by decide, by decide, by decide⟩
  rw [ytSrc_template raw ap hne hyp, formEncode_of_idChars hch]
  rfl

/-- C1 counterexample: for the raw input `"a b"` the extracted identifier
is the non-empty, non-sentinel fallback `"a b"`, yet the URL differs from
the claimed template: the `playlist` parameter is form-encoded (`a+b`)
while the path is not, so the identifier does not appear identically in
both. -/
theorem ytSrc_spec_url_cex :
    extractYTId (some (toL "a b")) ≠ [] ∧
    listStartsWith (extractYTId (some (toL "a b"))) yourSentinel = false ∧
    ytSrc (some (toL "a b")) (some { autoplay := some 0 }) ≠
      specEmbedUrl (extractYTId (some (toL "a b"))) (intStr 0) := by
  refine ⟨by decide, by decide, by decide⟩

theorem ytSrc_builds_spec_url_witness :
    ((0 : Int) = 0 ∨ (0 : Int) = 1) ∧
    ytSrc (some (toL "RAbnwLxwPNY")) (some { autoplay := some 0 }) =
      specEmbedUrl (toL "RAbnwLxwPNY") (intStr 0) := by
  refine ⟨Or.inl rfl, ?_⟩
  have h := (ytSrc_builds_spec_url (toL "RAbnwLxwPNY") 0 (Or.inl rfl)
    (by decide) (by decide) (by decide)).1
  rw [show extractYTId (some (toL "RAbnwLxwPNY")) = toL "RAbnwLxwPNY" by decide] at h
  exact h

/-- C10: `ytSrc` does not validate or clamp `autoplay` — for every integer
configuration value `a` and every raw input extracting to a non-empty,
non-sentinel identifier, the URL's `autoplay` parameter is exactly
`String(a)`; in particular `{autoplay: 2}` yields `autoplay=2`. -/
theorem ytSrc_autoplay_unclamped (a : Int) (raw : Str)
    (hne : extractYTId (some raw) ≠ [])
    (hyp : listStartsWith (extractYTId (some raw)) yourSentinel = false) :
    ytSrc (some raw) (some { autoplay := some a }) =
      embedBase ++ extractYTId (some raw) ++ '?' ::
        (toL "autoplay=" ++ (intStr a ++
         (toL "&mute=1&controls=0&rel=0&modestbranding=1&playsinline=1&iv_load_policy=3&loop=1&playlist=" ++
         formEncode (extractYTId (some raw))))) ∧
    hasSub (ytSrc (some (toL "RAbnwLxwPNY")) (some { autoplay := some 2 }))
      (toL "autoplay=2") = true :=
  ⟨ytSrc_template raw a hne hyp, by decide⟩

theorem ytSrc_autoplay_unclamped_witness :
    extractYTId (some (toL "RAbnwLxwPNY")) ≠ [] ∧
    ytSrc (some (toL "RAbnwLxwPNY")) (some { autoplay := some 2 }) =
      embedBase ++ extractYTId (some (toL "RAbnwLxwPNY")) ++ '?' ::
        (toL "autoplay=" ++ (intStr 2 ++
         (toL "&mute=1&controls=0&rel=0&modestbranding=1&playsinline=1&iv_load_policy=3&loop=1&playlist=" ++
         formEncode (extractYTId (some (toL "RAbnwLxwPNY")))))) :=
  ⟨by decide, (ytSrc_autoplay_unclamped 2 (toL "RAbnwLxwPNY") (by decide) (by decide)).1⟩

/-! ## C4: the `YOUR_` placeholder sentinel -/

theorem listStartsWith_nil (s : Str) : listStartsWith s [] = true := by
  cases s <;> rfl

theorem dropWhile_append_split (p : Char → Bool) (l1 l2 : Str) :
    (l1 ++ l2).dropWhile p =
      if (l1.dropWhile p).isEmpty then l2.dropWhile p else l1.dropWhile p ++ l2 := by
  induction l1 with
  | nil => simp
  | cons a l1 ih =>
    by_cases ha : p a = true
    · rw [List.cons_append, List.dropWhile_cons, ha, List.dropWhile_cons, ha, ih]
      simp
    · rw [Bool.not_eq_true] at ha
      rw [List.cons_append, List.dropWhile_cons, ha, List.dropWhile_cons, ha]
      simp

/-- Trimming preserves a non-whitespace prefix. -/
theorem listStartsWith_jsTrim {s p : Str} (hp : ∀ c ∈ p, jsWhitespace c = false)
    (h : listStartsWith s p = true) : listStartsWith (jsTrim s) p = true := by
  rcases (listStartsWith_iff s p).mp h with ⟨r, rfl⟩
  cases p with
  | nil => exact listStartsWith_nil _
  | cons q qs =>
    have hq : jsWhitespace q = false := hp q (List.mem_cons_self _ _)
    unfold jsTrim
    rw [List.cons_append, List.dropWhile_cons, hq]
    simp only [Bool.false_eq_true, if_false]
    rw [show q :: (qs ++ r) = (q :: qs) ++ r from rfl, List.reverse_append,
        dropWhile_append_split]
    by_cases he : (r.reverse.dropWhile jsWhitespace).isEmpty = true
    · rw [if_pos he,
          dropWhile_eq_self_of (fun c hc => hp c (List.mem_reverse.mp hc)),
          List.reverse_reverse]
      exact listStartsWith_refl _
    · rw [if_neg he, List.reverse_append, List.reverse_reverse]
      exact listStartsWith_append _ _

/-- When the URL regex finds no match, extraction returns the trimmed
input. -/
theorem extract_eq_trim_of_no_match {v : Str} (hv : v.isEmpty = false)
    (hm : firstMatch codeMarkers (jsTrim v) = none) :
    extractYTId (some v) = jsTrim v := by
  simp only [extractYTId, hv, Bool.false_eq_true, if_false, hm]
  split <;> rfl

/-- C4 counterexample: the input `"YOUR_/embed/RAbnwLxwPNY"` starts with
`YOUR_`, yet `ytSrc` does not return the empty string — extraction finds
the identifier after the `/embed/` marker, which does not start with
`YOUR_`, so a full URL is built. -/
theorem ytSrc_sentinel_cex :
    listStartsWith (toL "YOUR_/embed/RAbnwLxwPNY") yourSentinel = true ∧
    ytSrc (some (toL "YOUR_/embed/RAbnwLxwPNY")) none ≠ [] :=
  ⟨by decide, by decide⟩

/-- C4 (amended): `ytSrc` returns the empty string, regardless of the
config, for every input whose extracted identifier starts with `YOUR_`;
in particular for every input that itself starts with `YOUR_` and in which
the URL regex finds no match (the shape of actual unfilled placeholders
such as `YOUR_YOUTUBE_ID`). -/
theorem ytSrc_sentinel_empty (raw : Str) (options : Option YtOptions) :
    (listStartsWith (extractYTId (some raw)) yourSentinel = true →
      ytSrc (some raw) options = []) ∧
    (listStartsWith raw yourSentinel = true →
      firstMatch codeMarkers (jsTrim raw) = none →
      ytSrc (some raw) options = []) := by
  have hfst : listStartsWith (extractYTId (some raw)) yourSentinel = true →
      ytSrc (some raw) options = [] := by
    intro h
    simp [ytSrc, h]
  refine ⟨hfst, ?_⟩
  intro h hm
  have hv : raw.isEmpty = false := by
    cases raw with
    | nil => exact absurd h (by decide)
    | cons a l => rfl
  have hex : extractYTId (some raw) = jsTrim raw := extract_eq_trim_of_no_match hv hm
  have hys : ∀ c ∈ yourSentinel, jsWhitespace c = false := by decide
  exact hfst (hex ▸ listStartsWith_jsTrim hys h)

theorem ytSrc_sentinel_empty_witness :
    listStartsWith (extractYTId (some (toL "YOUR_YOUTUBE_ID"))) yourSentinel = true ∧
    ytSrc (some (toL "YOUR_YOUTUBE_ID")) none = [] ∧
    ytSrc (some (toL "YOUR_YOUTUBE_ID ")) (some { autoplay := some 0 }) = [] :=
  ⟨by decide, (ytSrc_sentinel_empty (toL "YOUR_YOUTUBE_ID") none).1 (by decide),
   (ytSrc_sentinel_empty (toL "YOUR_YOUTUBE_ID ") (some { autoplay := some 0 })).2
     (by decide) (by decide)⟩

/-! ## C3: extraction from URL shapes -/

theorem take_len_append (a b : Str) : (a ++ b).take a.length = a := by
  induction a with
  | nil => rfl
  | cons x xs ih => simp [List.take_succ_cons, ih]

theorem drop_len_append (a b : Str) : (a ++ b).drop a.length = b := by
  induction a with
  | nil => rfl
  | cons x xs ih => simp [ih]

theorem lsw_cons (a b : Char) (s p : Str) :
    listStartsWith (a :: s) (b :: p) =
      if a = b then listStartsWith s p else false := rfl

theorem matchHere_cons (m : Str) (ms : List Str) (s : Str) :
    matchHere (m :: ms) s =
      if listStartsWith s m then
        match idAfter (s.drop m.length) with
        | some vid => some vid
        | none => matchHere ms s
      else matchHere ms s := by
  rfl

theorem firstMatch_cons (markers : List Str) (c : Char) (cs : Str) :
    firstMatch markers (c :: cs) =
      match matchHere markers (c :: cs) with
      | some vid => some vid
      | none => firstMatch markers cs := by
  rfl

theorem idAfter_sound {x vid : Str} (h : idAfter x = some vid) :
    (∃ rest, x = vid ++ rest) ∧ vid.length = 11 ∧ vid.all isIdChar = true := by
  unfold idAfter at h
  by_cases hc : ((x.take 11).length == 11 && (x.take 11).all isIdChar) = true
  · rw [if_pos hc] at h
    injection h with h'
    subst h'
    rcases Bool.and_eq_true _ _ |>.mp hc with ⟨h1, h2⟩
    exact ⟨⟨x.drop 11, (List.take_append_drop 11 x).symm⟩,
      beq_iff_eq.mp h1, h2⟩
  · rw [if_neg hc] at h
    cases h

theorem idAfter_complete {vid : Str} (rest : Str) (hlen : vid.length = 11)
    (hch : vid.all isIdChar = true) : idAfter (vid ++ rest) = some vid := by
  have ht : (vid ++ rest).take 11 = vid := by
    rw [← hlen]
    exact take_len_append _ _
  unfold idAfter
  rw [ht, hlen, hch]
  simp

theorem matchHere_sound {markers : List Str} {s vid : Str}
    (h : matchHere markers s = some vid) :
    ∃ m rest, m ∈ markers ∧ s = m ++ (vid ++ rest) ∧ vid.length = 11 ∧
      vid.all isIdChar = true := by
  induction markers with
  | nil => cases h
  | cons m ms ih =>
    rw [matchHere_cons] at h
    by_cases hs : listStartsWith s m = true
    · rw [hs] at h
      cases hi : idAfter (s.drop m.length) with
      | none =>
        rw [hi] at h
        have h2 : matchHere ms s = some vid := h
        obtain ⟨m2, rest, hm2, hsdec, hlen, hch⟩ := ih h2
        exact ⟨m2, rest, List.mem_cons_of_mem _ hm2, hsdec, hlen, hch⟩
      | some vid2 =>
        rw [hi] at h
        have h2 : some vid2 = some vid := h
        injection h2 with h2
        subst h2
        obtain ⟨r, hr⟩ := (listStartsWith_iff s m).mp hs
        subst hr
        rw [drop_len_append] at hi
        obtain ⟨⟨rest, hrest⟩, hlen, hch⟩ := idAfter_sound hi
        exact ⟨m, rest, List.mem_cons_self _ _, by rw [hrest], hlen, hch⟩
    · rw [Bool.not_eq_true] at hs
      rw [hs] at h
      have h2 : matchHere ms s = some vid := h
      obtain ⟨m2, rest, hm2, hsdec, hlen, hch⟩ := ih h2
      exact ⟨m2, rest, List.mem_cons_of_mem _ hm2, hsdec, hlen, hch⟩

theorem matchHere_complete {m vid : Str} (rest : Str) (hmem : m ∈ codeMarkers)
    (hlen : vid.length = 11) (hch : vid.all isIdChar = true) :
    matchHere codeMarkers (m ++ (vid ++ rest)) = some vid := by
  have hid : idAfter (vid ++ rest) = some vid := idAfter_complete rest hlen hch
  have hmem' : m = toL "v=" ∨ m = toL "/embed/" ∨ m = toL "/shorts/" ∨
      m = toL "youtu.be/" := by
    simpa [codeMarkers] using hmem
  rcases hmem' with rfl | rfl | rfl | rfl
  · rw [show codeMarkers = [toL "v=", toL "/embed/", toL "/shorts/", toL "youtu.be/"] from rfl,
        matchHere_cons, listStartsWith_append, drop_len_append, hid]
    rfl
  · have h1 : listStartsWith (toL "/embed/" ++ (vid ++ rest)) (toL "v=") = false := by
      show listStartsWith ('/' :: (toL "embed/" ++ (vid ++ rest))) ('v' :: toL "=") = false
      rw [lsw_cons, if_neg (by decide)]
    rw [show codeMarkers = [toL "v=", toL "/embed/", toL "/shorts/", toL "youtu.be/"] from rfl,
        matchHere_cons, h1]
    show matchHere [toL "/embed/", toL "/shorts/", toL "youtu.be/"]
      (toL "/embed/" ++ (vid ++ rest)) = some vid
    rw [matchHere_cons, listStartsWith_append, drop_len_append, hid]
    rfl
  · have h1 : listStartsWith (toL "/shorts/" ++ (vid ++ rest)) (toL "v=") = false := by
      show listStartsWith ('/' :: (toL "shorts/" ++ (vid ++ rest))) ('v' :: toL "=") = false
      rw [lsw_cons, if_neg (by decide)]
    have h2 : listStartsWith (toL "/shorts/" ++ (vid ++ rest)) (toL "/embed/") = false := by
      show listStartsWith ('/' :: 's' :: (toL "horts/" ++ (vid ++ rest)))
        ('/' :: 'e' :: toL "mbed/") = false
      rw [lsw_cons, if_pos rfl, lsw_cons, if_neg (by decide)]
    rw [show codeMarkers = [toL "v=", toL "/embed/", toL "/shorts/", toL "youtu.be/"] from rfl,
        matchHere_cons, h1]
    show matchHere [toL "/embed/", toL "/shorts/", toL "youtu.be/"]
      (toL "/shorts/" ++ (vid ++ rest)) = some vid
    rw [matchHere_cons, h2]
    show matchHere [toL "/shorts/", toL "youtu.be/"]
      (toL "/shorts/" ++ (vid ++ rest)) = some vid
    rw [matchHere_cons, listStartsWith_append, drop_len_append, hid]
    rfl
  · have h1 : listStartsWith (toL "youtu.be/" ++ (vid ++ rest)) (toL "v=") = false := by
      show listStartsWith ('y' :: (toL "outu.be/" ++ (vid ++ rest))) ('v' :: toL "=") = false
      rw [lsw_cons, if_neg (by decide)]
    have h2 : listStartsWith (toL "youtu.be/" ++ (vid ++ rest)) (toL "/embed/") = false := by
      show listStartsWith ('y' :: (toL "outu.be/" ++ (vid ++ rest))) ('/' :: toL "embed/") = false
      rw [lsw_cons, if_neg (by decide)]
    have h3 : listStartsWith (toL "youtu.be/" ++ (vid ++ rest)) (toL "/shorts/") = false := by
      show listStartsWith ('y' :: (toL "outu.be/" ++ (vid ++ rest))) ('/' :: toL "shorts/") = false
      rw [lsw_cons, if_neg (by decide)]
    rw [show codeMarkers = [toL "v=", toL "/embed/", toL "/shorts/", toL "youtu.be/"] from rfl,
        matchHere_cons, h1]
    show matchHere [toL "/embed/", toL "/shorts/", toL "youtu.be/"]
      (toL "youtu.be/" ++ (vid ++ rest)) = some vid
    rw [matchHere_cons, h2]
    show matchHere [toL "/shorts/", toL "youtu.be/"]
      (toL "youtu.be/" ++ (vid ++ rest)) = some vid
    rw [matchHere_cons, h3]
    show matchHere [toL "youtu.be/"] (toL "youtu.be/" ++ (vid ++ rest)) = some vid
    rw [matchHere_cons, listStartsWith_append, drop_len_append, hid]
    rfl

theorem firstMatch_some_sound {t vid : Str}
    (h : firstMatch codeMarkers t = some vid) :
    ∃ i, matchHere codeMarkers (t.drop i) = some vid ∧
      ∀ j, j < i → matchHere codeMarkers (t.drop j) = none := by
  induction t with
  | nil => cases h
  | cons c cs ih =>
    rw [firstMatch_cons] at h
    cases hm : matchHere codeMarkers (c :: cs) with
    | some v2 =>
      rw [hm] at h
      have h2 : some v2 = some vid := h
      injection h2 with h2
      subst h2
      exact ⟨0, hm, fun j hj => absurd hj (Nat.not_lt_zero j)⟩
    | none =>
      rw [hm] at h
      have h2 : firstMatch codeMarkers cs = some vid := h
      obtain ⟨i, hi, hj⟩ := ih h2
      refine ⟨i + 1, ?_, ?_⟩
      · rw [List.drop_succ_cons]
        exact hi
      · intro j hjlt
        cases j with
        | zero => exact hm
        | succ k =>
          rw [List.drop_succ_cons]
          exact hj k (Nat.lt_of_succ_lt_succ hjlt)

theorem firstMatch_none_sound {t : Str}
    (h : firstMatch codeMarkers t = none) (i : Nat) :
    matchHere codeMarkers (t.drop i) = none := by
  induction t generalizing i with
  | nil =>
    rw [List.drop_nil]
    decide
  | cons c cs ih =>
    rw [firstMatch_cons] at h
    cases hm : matchHere codeMarkers (c :: cs) with
    | some v2 =>
      rw [hm] at h
      have h2 : (some v2 : Option Str) = none := h
      cases h2
    | none =>
      rw [hm] at h
      have h2 : firstMatch codeMarkers cs = none := h
      cases i with
      | zero => exact hm
      | succ k =>
        rw [List.drop_succ_cons]
        exact ih h2 k

theorem firstMatch_of_least {t vid : Str} {i : Nat}
    (hnone : ∀ j, j < i → matchHere codeMarkers (t.drop j) = none)
    (hsome : matchHere codeMarkers (t.drop i) = some vid) :
    firstMatch codeMarkers t = some vid := by
  induction i generalizing t with
  | zero =>
    cases t with
    | nil =>
      have hnil : matchHere codeMarkers (List.drop 0 ([] : Str)) = none := by decide
      rw [hnil] at hsome
      cases hsome
    | cons c cs =>
      have hs : matchHere codeMarkers (c :: cs) = some vid := hsome
      rw [firstMatch_cons, hs]
  | succ k ih =>
    cases t with
    | nil =>
      have hnil : matchHere codeMarkers (List.drop (k + 1) ([] : Str)) = none := by
        rw [List.drop_nil]
        decide
      rw [hnil] at hsome
      cases hsome
    | cons c cs =>
      have h0 : matchHere codeMarkers (c :: cs) = none := hnone 0 (Nat.succ_pos k)
      rw [firstMatch_cons, h0]
      show firstMatch codeMarkers cs = some vid
      rw [List.drop_succ_cons] at hsome
      refine ih (fun j hj => ?_) hsome
      have := hnone (j + 1) (Nat.succ_lt_succ hj)
      rw [List.drop_succ_cons] at this
      exact this

theorem extract_eq_of_match {v vid : Str} (hv : v.isEmpty = false)
    (hb : isBareId (jsTrim v) = false)
    (hm : firstMatch codeMarkers (jsTrim v) = some vid) :
    extractYTId (some v) = vid := by
  simp only [extractYTId, hv, Bool.false_eq_true, if_false, hb, hm]

/-- C3 counterexample: the input `"https://x/watch?video=RAbnwLxwPNY"` has
a `video=` query parameter followed by the 11-character identifier
`RAbnwLxwPNY` (shown by the explicit decomposition below), its trimmed
value is itself (not a bare identifier), yet `extractYTId` returns the
whole input rather than that identifier — the code's regex marker is the
substring `v=`, which does not occur in `video=`. -/
theorem extractYTId_video_param_cex :
    jsTrim (toL "https://x/watch?video=RAbnwLxwPNY") =
      toL "https://x/watch?video=RAbnwLxwPNY" ∧
    isBareId (toL "https://x/watch?video=RAbnwLxwPNY") = false ∧
    toL "https://x/watch?video=RAbnwLxwPNY" =
      toL "https://x/watch?" ++ (toL "video=" ++ (toL "RAbnwLxwPNY" ++ [])) ∧
    (toL "RAbnwLxwPNY").length = 11 ∧
    (toL "RAbnwLxwPNY").all isIdChar = true ∧
    extractYTId (some (toL "https://x/watch?video=RAbnwLxwPNY")) =
      toL "https://x/watch?video=RAbnwLxwPNY" ∧
    toL "https://x/watch?video=RAbnwLxwPNY" ≠ toL "RAbnwLxwPNY" :=
  ⟨by decide, by decide, by decide, by decide, by decide, by decide, by decide⟩

/-- C3 (amended): for every non-empty input whose trimmed value is not a
bare 11-character identifier, `extractYTId` returns the identifier captured
at the leftmost occurrence of one of the code's markers — the substring
`v=` (not the spec's `video=` parameter), `/embed/`, `/shorts/`, or
`youtu.be/` — followed immediately by 11 identifier characters; when no
such occurrence exists it returns the trimmed input unchanged; in
particular the four documented URL shapes extract to `RAbnwLxwPNY`. -/
theorem extractYTId_url_markers (v : Str) (hv : v.isEmpty = false)
    (hb : isBareId (jsTrim v) = false) :
    (∀ i vid, MatchAt (jsTrim v) i vid →
       (∀ j vid2, j < i → ¬ MatchAt (jsTrim v) j vid2) →
       extractYTId (some v) = vid) ∧
    ((∀ i vid, ¬ MatchAt (jsTrim v) i vid) → extractYTId (some v) = jsTrim v) ∧
    extractYTId (some (toL "https://youtu.be/RAbnwLxwPNY")) = toL "RAbnwLxwPNY" ∧
    extractYTId (some (toL "https://x/embed/RAbnwLxwPNY")) = toL "RAbnwLxwPNY" ∧
    extractYTId (some (toL "https://x/watch?v=RAbnwLxwPNY")) = toL "RAbnwLxwPNY" ∧
    extractYTId (some (toL "https://x/shorts/RAbnwLxwPNY")) = toL "RAbnwLxwPNY" := by
  refine ⟨?_, ?_, by decide, by decide, by decide, by decide⟩
  · rintro i vid ⟨m, rest, hmem, hdec, hlen, hch⟩ hleast
    have hsome : matchHere codeMarkers ((jsTrim v).drop i) = some vid := by
      rw [hdec]
      exact matchHere_complete rest hmem hlen hch
    have hnone : ∀ j, j < i → matchHere codeMarkers ((jsTrim v).drop j) = none := by
      intro j hj
      cases hmj : matchHere codeMarkers ((jsTrim v).drop j) with
      | none => rfl
      | some vid2 =>
        obtain ⟨m2, rest2, hm2, hdec2, hlen2, hch2⟩ := matchHere_sound hmj
        exact absurd ⟨m2, rest2, hm2, hdec2, hlen2, hch2⟩ (hleast j vid2 hj)
    exact extract_eq_of_match hv hb (firstMatch_of_least hnone hsome)
  · intro hno
    cases hfm : firstMatch codeMarkers (jsTrim v) with
    | none => exact extract_eq_trim_of_no_match hv hfm
    | some vid =>
      obtain ⟨i, hi, _⟩ := firstMatch_some_sound hfm
      obtain ⟨m, rest, hmem, hdec, hlen, hch⟩ := matchHere_sound hi
      exact absurd ⟨m, rest, hmem, hdec, hlen, hch⟩ (hno i vid)

theorem extractYTId_url_markers_witness :
    (toL "/embed/RAbnwLxwPNY").isEmpty = false ∧
    isBareId (jsTrim (toL "/embed/RAbnwLxwPNY")) = false ∧
    extractYTId (some (toL "/embed/RAbnwLxwPNY")) = toL "RAbnwLxwPNY" := by
  refine ⟨by decide, by decide, ?_⟩
  exact (extractYTId_url_markers (toL "/embed/RAbnwLxwPNY") (by decide) (by decide)).1
    0 (toL "RAbnwLxwPNY")
    ⟨toL "/embed/", [], by decide, by decide, by decide, by decide⟩
    (fun j vid2 hj _ => absurd hj (Nat.not_lt_zero j))

/-! ## C6 / C7: the player host manager -/

theorem isEmpty_eq_false_of_ne {α : Type} {l : List α} (h : l ≠ []) :
    l.isEmpty = false := by
  cases l with
  | nil => exact absurd rfl h
  | cons a t => rfl

theorem count_setFirstIframeSrc (s : Str) (ns : List DomNode) :
    countIframes (setFirstIframeSrc s ns) = countIframes ns := by
  induction ns with
  | nil => rfl
  | cons n t ih =>
    cases n with
    | iframe s2 => rfl
    | other tag => simp [setFirstIframeSrc, countIframes, ih]

theorem count_append_iframe (ns : List DomNode) (s : Str) :
    countIframes (ns ++ [DomNode.iframe s]) = countIframes ns + 1 := by
  induction ns with
  | nil => rfl
  | cons n t ih =>
    cases n with
    | iframe s2 => simp [countIframes, ih]
    | other tag => simp [countIframes, ih]

theorem hasIframe_false_iff (ns : List DomNode) :
    hasIframe ns = false ↔ countIframes ns = 0 := by
  induction ns with
  | nil => simp [hasIframe, countIframes]
  | cons n t ih =>
    cases n with
    | iframe s => simp [hasIframe, countIframes]
    | other tag => simp [hasIframe, countIframes, ih]

theorem firstIframeSrc_setFirst {ns : List DomNode} (s : Str)
    (h : hasIframe ns = true) :
    firstIframeSrc (setFirstIframeSrc s ns) = some s := by
  induction ns with
  | nil => cases h
  | cons n t ih =>
    cases n with
    | iframe s2 => rfl
    | other tag =>
      have h2 : hasIframe t = true := h
      simp [setFirstIframeSrc, firstIframeSrc, ih h2]

theorem firstIframeSrc_append {ns : List DomNode} (s : Str)
    (h : hasIframe ns = false) :
    firstIframeSrc (ns ++ [DomNode.iframe s]) = some s := by
  induction ns with
  | nil => rfl
  | cons n t ih =>
    cases n with
    | iframe s2 => cases h
    | other tag =>
      have h2 : hasIframe t = false := h
      simp [firstIframeSrc, ih h2]

theorem removeFirst_append {pre : List DomNode} (s : Str) (post : List DomNode)
    (h : hasIframe pre = false) :
    removeFirstIframe (pre ++ DomNode.iframe s :: post) = pre ++ post := by
  induction pre with
  | nil => rfl
  | cons n t ih =>
    cases n with
    | iframe s2 => cases h
    | other tag =>
      have h2 : hasIframe t = false := h
      simp [removeFirstIframe, ih h2]

theorem hasIframe_append_iframe (pre : List DomNode) (s : Str)
    (post : List DomNode) :
    hasIframe (pre ++ DomNode.iframe s :: post) = true := by
  induction pre with
  | nil => rfl
  | cons n t ih =>
    cases n with
    | iframe s2 => rfl
    | other tag => simpa [hasIframe] using ih

theorem injectIframe_success (ns : List DomNode) (r : Str) (o : Option YtOptions)
    (hr : r ≠ []) (hsrc : ytSrc (some r) o ≠ []) :
    injectIframe (some ns) (some r) o =
      (some (if hasIframe ns then setFirstIframeSrc (ytSrc (some r) o) ns
             else ns ++ [DomNode.iframe (ytSrc (some r) o)]),
       some (ytSrc (some r) o)) := by
  simp only [injectIframe, isEmpty_eq_false_of_ne hr, isEmpty_eq_false_of_ne hsrc,
    Bool.false_eq_true, if_false]
  split <;> rfl

theorem injectChildren_success (ns : List DomNode) (r : Str) (o : Option YtOptions)
    (hr : r ≠ []) (hsrc : ytSrc (some r) o ≠ []) :
    injectChildren ns (some r) o =
      if hasIframe ns then setFirstIframeSrc (ytSrc (some r) o) ns
      else ns ++ [DomNode.iframe (ytSrc (some r) o)] := by
  unfold injectChildren
  rw [injectIframe_success ns r o hr hsrc]
  rfl

theorem injectChildren_count_le (ns : List DomNode) (r : Option Str)
    (o : Option YtOptions) (h : countIframes ns ≤ 1) :
    countIframes (injectChildren ns r o) ≤ 1 := by
  cases r with
  | none => exact h
  | some rv =>
    by_cases hr : rv = []
    · subst hr
      exact h
    · by_cases hsrc : ytSrc (some rv) o = []
      · unfold injectChildren
        simp only [injectIframe, isEmpty_eq_false_of_ne hr, Bool.false_eq_true,
          if_false, hsrc]
        exact h
      · rw [injectChildren_success ns rv o hr hsrc]
        by_cases hi : hasIframe ns = true
        · rw [if_pos hi, count_setFirstIframeSrc]
          exact h
        · rw [Bool.not_eq_true] at hi
          rw [if_neg (by simp [hi]), count_append_iframe,
              (hasIframe_false_iff ns).mp hi]

theorem injectChildren_success_count (ns : List DomNode) (r : Str)
    (o : Option YtOptions) (h : countIframes ns ≤ 1) (hr : r ≠ [])
    (hsrc : ytSrc (some r) o ≠ []) :
    countIframes (injectChildren ns (some r) o) = 1 := by
  rw [injectChildren_success ns r o hr hsrc]
  by_cases hi : hasIframe ns = true
  · rw [if_pos hi, count_setFirstIframeSrc]
    rcases Nat.lt_or_ge (countIframes ns) 1 with hlt | hge
    · have h0 : countIframes ns = 0 := by omega
      rw [← hasIframe_false_iff] at h0
      rw [h0] at hi
      cases hi
    · omega
  · rw [Bool.not_eq_true] at hi
    rw [if_neg (by simp [hi]), count_append_iframe, (hasIframe_false_iff ns).mp hi]

theorem injectChildren_success_src (ns : List DomNode) (r : Str)
    (o : Option YtOptions) (hr : r ≠ []) (hsrc : ytSrc (some r) o ≠ []) :
    firstIframeSrc (injectChildren ns (some r) o) = some (ytSrc (some r) o) := by
  rw [injectChildren_success ns r o hr hsrc]
  by_cases hi : hasIframe ns = true
  · rw [if_pos hi]
    exact firstIframeSrc_setFirst _ hi
  · rw [Bool.not_eq_true] at hi
    rw [if_neg (by simp [hi])]
    exact firstIframeSrc_append _ hi

/-- C6: starting from a host with at most one iframe, any sequence of
`injectIframe` calls leaves at most one iframe (a present iframe is reused,
never duplicated); every successful call unconditionally (re)sets the
first iframe's `src` to the newly built URL and returns it; and two
successive calls with the same host and reference leave exactly one iframe
whose `src` is the latest built URL. -/
theorem injectIframe_single_player (ns : List DomNode)
    (hcount : countIframes ns ≤ 1) :
    (∀ seq, countIframes (runInjects ns seq) ≤ 1) ∧
    (∀ r o, r ≠ [] → ytSrc (some r) o ≠ [] →
      (injectIframe (some ns) (some r) o).2 = some (ytSrc (some r) o) ∧
      firstIframeSrc (injectChildren ns (some r) o) = some (ytSrc (some r) o)) ∧
    (∀ r o, r ≠ [] → ytSrc (some r) o ≠ [] →
      countIframes (injectChildren (injectChildren ns (some r) o) (some r) o) = 1 ∧
      firstIframeSrc (injectChildren (injectChildren ns (some r) o) (some r) o) =
        some (ytSrc (some r) o)) := by
  refine ⟨?_, ?_, ?_⟩
  · intro seq
    induction seq generalizing ns with
    | nil => exact hcount
    | cons p rest ih =>
      exact ih _ (injectChildren_count_le ns p.1 p.2 hcount)
  · intro r o hr hsrc
    refine ⟨?_, injectChildren_success_src ns r o hr hsrc⟩
    rw [injectIframe_success ns r o hr hsrc]
  · intro r o hr hsrc
    have h1 : countIframes (injectChildren ns (some r) o) = 1 :=
      injectChildren_success_count ns r o hcount hr hsrc
    exact ⟨injectChildren_success_count _ r o (by omega) hr hsrc,
      injectChildren_success_src _ r o hr hsrc⟩

theorem injectIframe_single_player_witness :
    countIframes ([] : List DomNode) ≤ 1 ∧
    countIframes (runInjects []
      [(some (toL "RAbnwLxwPNY"), none), (some (toL "RAbnwLxwPNY"), none)]) ≤ 1 ∧
    countIframes (injectChildren (injectChildren [] (some (toL "RAbnwLxwPNY")) none)
      (some (toL "RAbnwLxwPNY")) none) = 1 ∧
    firstIframeSrc (injectChildren (injectChildren [] (some (toL "RAbnwLxwPNY")) none)
      (some (toL "RAbnwLxwPNY")) none) = some (ytSrc (some (toL "RAbnwLxwPNY")) none) := by
  refine ⟨by decide, (injectIframe_single_player [] (by decide)).1 _, ?_, ?_⟩
  · exact ((injectIframe_single_player [] (by decide)).2.2 (toL "RAbnwLxwPNY") none
      (by decide) (by decide)).1
  · exact ((injectIframe_single_player [] (by decide)).2.2 (toL "RAbnwLxwPNY") none
      (by decide) (by decide)).2

/-- C7: `clearIframe` is the identity for a missing host and for a host
without an iframe, and on a host whose first iframe sits between `pre` and
`post` it removes exactly that iframe, leaving every other child (in
particular every non-iframe sibling) in place and the host itself intact. -/
theorem clearIframe_removes_only_player :
    clearIframe none = none ∧
    (∀ ns, hasIframe ns = false → clearIframe (some ns) = some ns) ∧
    (∀ pre s post, hasIframe pre = false →
      clearIframe (some (pre ++ DomNode.iframe s :: post)) = some (pre ++ post)) := by
  refine ⟨rfl, ?_, ?_⟩
  · intro ns h
    simp [clearIframe, h]
  · intro pre s post h
    simp [clearIframe, hasIframe_append_iframe, removeFirst_append s post h]

theorem clearIframe_removes_only_player_witness :
    clearIframe none = none ∧
    clearIframe (some [DomNode.other 0]) = some [DomNode.other 0] ∧
    clearIframe (some ([DomNode.other 0] ++ DomNode.iframe (toL "u") :: [DomNode.other 1])) =
      some ([DomNode.other 0] ++ [DomNode.other 1]) :=
  ⟨clearIframe_removes_only_player.1,
   clearIframe_removes_only_player.2.1 [DomNode.other 0] (by decide),
   clearIframe_removes_only_player.2.2 [DomNode.other 0] (toL "u") [DomNode.other 1]
     (by decide)⟩

/-! ## C8 / C9: hover-preview wiring -/

theorem runHoverCycles_succ (c : Card) (n : Nat) :
    runHoverCycles c (n + 1) =
      runHoverCycles (hoverStep (hoverStep c PEvent.enter) PEvent.leave) n := rfl

theorem hoverStep_enter (h : EmbedHost) (b : Bool)
    (hw : hoverWired { embed := some h, isPlaying := b } = true)
    (hsrc : ytSrc (some h.dataYt) (some { autoplay := some 1 }) ≠ [])
    (h0 : hasIframe h.children = false) :
    hoverStep { embed := some h, isPlaying := b } PEvent.enter =
      { embed := some { h with children := h.children ++
          [DomNode.iframe (ytSrc (some h.dataYt) (some { autoplay := some 1 }))] },
        isPlaying := true } := by
  have hyt : h.dataYt ≠ [] := by
    intro hnil
    rw [show hoverWired { embed := some h, isPlaying := b } =
        (!h.dataAutoplay && !h.dataYt.isEmpty && !listStartsWith h.dataYt yourSentinel)
      from rfl, hnil] at hw
    simp at hw
  unfold hoverStep
  rw [hw]
  simp only [if_true]
  rw [injectChildren_success h.children h.dataYt (some { autoplay := some 1 }) hyt hsrc,
      if_neg (by simp [h0])]

theorem hoverStep_leave (h : EmbedHost) (b : Bool) (src : Str)
    (hw : hoverWired { embed := some h, isPlaying := b } = true)
    (h0 : hasIframe h.children = false) :
    hoverStep { embed := some { h with
        children := h.children ++ [DomNode.iframe src] }, isPlaying := b }
      PEvent.leave =
      { embed := some h, isPlaying := false } := by
  have hw2 : hoverWired { embed := some { h with
      children := h.children ++ [DomNode.iframe src] }, isPlaying := b } = true := hw
  unfold hoverStep
  rw [hw2]
  simp only [if_true]
  have hclear : clearIframe (some (h.children ++ [DomNode.iframe src])) =
      some h.children := by
    simp [clearIframe, hasIframe_append_iframe,
      removeFirst_append src ([] : List DomNode) h0]
  rw [hclear]
  rfl

theorem hover_cycle_id (h : EmbedHost)
    (hw : hoverWired { embed := some h, isPlaying := false } = true)
    (hsrc : ytSrc (some h.dataYt) (some { autoplay := some 1 }) ≠ [])
    (h0 : hasIframe h.children = false) :
    hoverStep (hoverStep { embed := some h, isPlaying := false } PEvent.enter)
      PEvent.leave = { embed := some h, isPlaying := false } := by
  rw [hoverStep_enter h false hw hsrc h0]
  exact hoverStep_leave h true _ hw h0

theorem runHoverCycles_fixed (h : EmbedHost)
    (hw : hoverWired { embed := some h, isPlaying := false } = true)
    (hsrc : ytSrc (some h.dataYt) (some { autoplay := some 1 }) ≠ [])
    (h0 : hasIframe h.children = false) (n : Nat) :
    runHoverCycles { embed := some h, isPlaying := false } n =
      { embed := some h, isPlaying := false } := by
  induction n with
  | zero => rfl
  | succ k ih =>
    rw [runHoverCycles_succ, hover_cycle_id h hw hsrc h0]
    exact ih

/-- C8 counterexample: a card whose `data-yt` value is the single space
`" "` is wired by `setupHoverPreviews` (the value is non-empty, not a
`YOUR_` placeholder, and carries no `data-autoplay`), starts Idle with
zero iframes, yet immediately after the first pointer-enter its host still
contains zero player elements: the extracted identifier is empty, so
`injectIframe` builds no URL and creates nothing. -/
theorem hover_cycle_cex :
    hoverWired ⟨some ⟨[], toL " ", false⟩, false⟩ = true ∧
    cardIframeCount (⟨some ⟨[], toL " ", false⟩, false⟩ : Card) = 0 ∧
    cardIframeCount (hoverStep ⟨some ⟨[], toL " ", false⟩, false⟩ PEvent.enter) = 0 :=
  ⟨by decide, by decide, by decide⟩

/-- C8 (amended): for every hover-preview card wired by
`setupHoverPreviews` whose `data-yt` value additionally builds a non-empty
embed URL, starting from the Idle state with zero iframes, every
alternating pointer-enter / pointer-leave sequence keeps exactly one
player element in the host immediately after each enter and exactly zero
immediately after each leave, for unboundedly many cycles. -/
theorem hover_cycle_counts (h : EmbedHost)
    (hw : hoverWired { embed := some h, isPlaying := false } = true)
    (hsrc : ytSrc (some h.dataYt) (some { autoplay := some 1 }) ≠ [])
    (h0 : countIframes h.children = 0) (n : Nat) :
    cardIframeCount (hoverStep (runHoverCycles { embed := some h, isPlaying := false } n)
      PEvent.enter) = 1 ∧
    cardIframeCount (runHoverCycles { embed := some h, isPlaying := false } (n + 1)) = 0 := by
  have hif : hasIframe h.children = false := (hasIframe_false_iff _).mpr h0
  have hfix := runHoverCycles_fixed h hw hsrc hif
  constructor
  · rw [hfix n, hoverStep_enter h false hw hsrc hif]
    show countIframes (h.children ++ [DomNode.iframe _]) = 1
    rw [count_append_iframe, h0]
  · rw [hfix (n + 1)]
    exact h0

theorem hover_cycle_counts_witness :
    hoverWired ⟨some ⟨[], toL "RAbnwLxwPNY", false⟩, false⟩ = true ∧
    cardIframeCount (hoverStep
      (runHoverCycles ⟨some ⟨[], toL "RAbnwLxwPNY", false⟩, false⟩ 1)
      PEvent.enter) = 1 ∧
    cardIframeCount (runHoverCycles ⟨some ⟨[], toL "RAbnwLxwPNY", false⟩, false⟩ 2) = 0 := by
  refine ⟨by decide, ?_, ?_⟩
  · exact (hover_cycle_counts ⟨[], toL "RAbnwLxwPNY", false⟩
      (by decide) (by decide) (by decide) 1).1
  · exact (hover_cycle_counts ⟨[], toL "RAbnwLxwPNY", false⟩
      (by decide) (by decide) (by decide) 1).2

/-- C9: a preview card whose embeddable sub-element carries the
`data-autoplay` attribute gets no hover wiring from `setupHoverPreviews`,
so no pointer-enter or pointer-leave event ever alters it. -/
theorem autoplay_card_hover_inert (c : Card) (h : EmbedHost)
    (hc : c.embed = some h) (ha : h.dataAutoplay = true) :
    ∀ e, hoverStep c e = c := by
  intro e
  have hw : hoverWired c = false := by
    simp [hoverWired, hc, ha]
  simp [hoverStep, hw]

theorem autoplay_card_hover_inert_witness :
    hoverStep ⟨some ⟨[], toL "RAbnwLxwPNY", true⟩, false⟩ PEvent.enter =
      (⟨some ⟨[], toL "RAbnwLxwPNY", true⟩, false⟩ : Card) ∧
    hoverStep ⟨some ⟨[], toL "RAbnwLxwPNY", true⟩, false⟩ PEvent.leave =
      (⟨some ⟨[], toL "RAbnwLxwPNY", true⟩, false⟩ : Card) :=
  ⟨autoplay_card_hover_inert _ _ rfl rfl PEvent.enter,
   autoplay_card_hover_inert _ _ rfl rfl PEvent.leave⟩
